import Mathlib

/-!
Shallow embedding of `src/market_research_tool.py` (a four-stage market
research pipeline).  External collaborators (topic modeler, sentiment
analyzer, market data validator, knowledge base) are modelled as explicit
function arguments returning `Except String _` where the Python collaborator
may raise.  Python floats are modelled as rationals, timestamps as strings.
-/

namespace MarketResearch

/-- Model of `RawDataBundle`: the dict produced by `collect_market_trends`, with keys
`news`, `social_media`, `timestamp`.  Document blobs are opaque (`α`, `β`). -/
structure RawDataBundle (α β : Type) where
  news : α
  social_media : β
  timestamp : String

/-- Model of `TrendRecord`: one dict produced by `analyze_data`
(`topic`, `sentiment_score`, `timestamp`). -/
structure TrendRecord where
  topic : String
  sentiment_score : ℚ
  timestamp : String
deriving DecidableEq

/-- Result dict of `MarketDataValidator.validate`: both keys are read with
`.get` and a default, so each may be absent. -/
structure ValidationResult where
  is_valid : Option Bool
  relevance_score : Option ℚ
deriving DecidableEq

/-- Model of `ValidatedRecord`: `{**trend, 'validation_status': 'valid',
'market_relevance_score': ...}` as built in `validate_trends`. -/
structure ValidatedRecord where
  topic : String
  sentiment_score : ℚ
  timestamp : String
  validation_status : String
  market_relevance_score : ℚ
deriving DecidableEq

/-- A record returned by `knowledge_base.query`: a Python dict that may lack
the `revenue_growth` key (`none`) and may or may not carry further keys
(`hasOtherFields`), which matters for Python truthiness of the dict. -/
structure KBRecord where
  revenue_growth : Option (List ℚ)
  hasOtherFields : Bool
deriving DecidableEq

/-- Python truthiness of a dict: truthy iff non-empty. -/
def KBRecord.truthy (r : KBRecord) : Bool :=
  r.revenue_growth.isSome || r.hasOtherFields

/-- Python truthiness of the value returned by `knowledge_base.query`
(`None` or a dict). -/
def kbTruthy : Option KBRecord → Bool
  | none => false
  | some r => r.truthy

/-- One dict of `_generate_recommendations`'s output. -/
structure RecommendationRecord where
  trend : String
  recommendation_type : String
  feasibility_score : ℚ
deriving DecidableEq

/-- The dict returned by `generate_insights`. -/
structure InsightPayload where
  emerging_trends : List String
  timestamp : String
  recommendations : List RecommendationRecord
deriving DecidableEq

/-- Embedding of `DataAnalysisModule.analyze_data`: calls the topic modeler on the `news`
partition and the sentiment analyzer on the `social_media` partition, then
zips the two sequences positionally (Python `zip` truncates to the shorter).
A collaborator failure propagates (the `except` clause logs and re-raises). -/
def analyze_data {α β : Type}
    (extract_topics : α → Except String (List String))
    (analyze_sentiment : β → Except String (List ℚ))
    (raw_data : RawDataBundle α β) : Except String (List TrendRecord) :=
  match extract_topics raw_data.news with
  | Except.error e => Except.error e
  | Except.ok topics =>
    match analyze_sentiment raw_data.social_media with
    | Except.error e => Except.error e
    | Except.ok sentiments =>
      Except.ok <| (topics.zip sentiments).map fun ts =>
        { topic := ts.1, sentiment_score := ts.2, timestamp := raw_data.timestamp }

/-- The record appended by `validate_trends` when
`validation_result.get('is_valid', False)` is truthy: the input trend's
fields spread with `validation_status = 'valid'` and
`market_relevance_score = validation_result.get('relevance_score', 0.5)`. -/
def mkValidated (trend : TrendRecord) (vr : ValidationResult) : ValidatedRecord :=
  { topic := trend.topic
    sentiment_score := trend.sentiment_score
    timestamp := trend.timestamp
    validation_status := "valid"
    market_relevance_score := vr.relevance_score.getD (1/2) }

/-- Embedding of `MarketValidationModule.validate_trends`: queries the validator per
topic in input order; a raising validator call propagates (logged then
re-raised), a falsy `is_valid` drops the record with a warning only. -/
def validate_trends (validate : String → Except String ValidationResult) :
    List TrendRecord → Except String (List ValidatedRecord)
  | [] => Except.ok []
  | trend :: rest =>
    match validate trend.topic with
    | Except.error e => Except.error e
    | Except.ok vr =>
      match validate_trends validate rest with
      | Except.error e => Except.error e
      | Except.ok tail =>
        if vr.is_valid.getD false then
          Except.ok (mkValidated trend vr :: tail)
        else
          Except.ok tail

/-- The knowledge-base key built in `_calculate_feasibility`:
`f"historical_{trend}_data"`. -/
def historicalKey (trend : String) : String :=
  "historical_" ++ trend ++ "_data"

/-- Embedding of `InsightGenerationModule._calculate_feasibility`: queries the knowledge
base, then evaluates
`sum(hd.get('revenue_growth', [0])) / len(hd.get('revenue_growth', [])) if hd else 0.5`
inside a `try` whose `except` returns `0.0`.  A raising query, and the
`ZeroDivisionError` when the `len` argument is empty, both land in the
`except` branch. -/
def calculate_feasibility
    (query : String → Except String (Option KBRecord)) (trend : String) : ℚ :=
  match query (historicalKey trend) with
  | Except.error _ => 0
  | Except.ok historical_data =>
    if kbTruthy historical_data then
      match historical_data with
      | none => 0
      | some r =>
        let sumArg := r.revenue_growth.getD [0]
        let lenArg := r.revenue_growth.getD []
        if lenArg.length = 0 then 0
        else sumArg.sum / (lenArg.length : ℚ)
    else 1/2

/-- Embedding of `InsightGenerationModule._generate_recommendations`: one dict per trend,
`recommendation_type` fixed to `'entry'`. -/
def generate_recommendations
    (query : String → Except String (Option KBRecord))
    (trends : List String) : List RecommendationRecord :=
  trends.map fun trend =>
    { trend := trend
      recommendation_type := "entry"
      feasibility_score := calculate_feasibility query trend }

/-- Embedding of `InsightGenerationModule.generate_insights`: the Python list
comprehension with an `if` filter, then the payload dict.  `now` stands for
`datetime.now().isoformat()`. -/
def generate_insights
    (query : String → Except String (Option KBRecord)) (now : String)
    (validated_data : List ValidatedRecord) : InsightPayload :=
  let emerging_trends :=
    validated_data.filterMap fun item =>
      if item.market_relevance_score ≥ 7/10 then some item.topic else none
  { emerging_trends := emerging_trends
    timestamp := now
    recommendations := generate_recommendations query emerging_trends }

/-! ### Concrete collaborator instances used by counterexamples and witnesses -/

/-- Knowledge base whose every record has the `revenue_growth` key bound to
the empty list (and no other key). -/
def qEmptySeries : String → Except String (Option KBRecord) :=
  fun _ => Except.ok (some { revenue_growth := some [], hasOtherFields := false })

/-- Knowledge base whose records are non-empty dicts lacking the
`revenue_growth` key. -/
def qMissingSeries : String → Except String (Option KBRecord) :=
  fun _ => Except.ok (some { revenue_growth := none, hasOtherFields := true })

/-- Knowledge base returning `None` for every key. -/
def qNone : String → Except String (Option KBRecord) :=
  fun _ => Except.ok none

/-! ### Claims about `_calculate_feasibility` -/

/-- C1 counterexample: with a knowledge base that resolves the key to a
record whose `revenue_growth` series is present but empty, the feasibility
score is `0`, not `0.5` as the claim states: the mean computation divides by
`len([]) = 0` and the resulting error is caught, returning `0.0`. -/
theorem C1_counterexample :
    qEmptySeries (historicalKey "ai")
        = Except.ok (some { revenue_growth := some [], hasOtherFields := false }) ∧
    calculate_feasibility qEmptySeries "ai" ≠ 1/2 ∧
    calculate_feasibility qEmptySeries "ai" = 0 := by
  refine ⟨rfl, ?_, rfl⟩
  have h0 : calculate_feasibility qEmptySeries "ai" = 0 := rfl
  rw [h0]
  norm_num

/-- C1 (amended): whenever the knowledge-base query succeeds with a record
whose `revenue_growth` series is present but empty, `_calculate_feasibility`
returns exactly `0` (the division by zero is caught by the per-topic
`except` branch). -/
theorem C1_empty_series_scores_zero
    (query : String → Except String (Option KBRecord)) (trend : String)
    (r : KBRecord)
    (hq : query (historicalKey trend) = Except.ok (some r))
    (hempty : r.revenue_growth = some []) :
    calculate_feasibility query trend = 0 := by
  unfold calculate_feasibility
  rw [hq]
  simp [kbTruthy, KBRecord.truthy, hempty]

/-- C1 witness: the amended claim at a concrete knowledge base and topic. -/
theorem C1_empty_series_scores_zero_witness :
    calculate_feasibility qEmptySeries "crypto" = 0 :=
  C1_empty_series_scores_zero qEmptySeries "crypto"
    { revenue_growth := some [], hasOtherFields := false } rfl rfl

/-- C9: when the query succeeds with a truthy record lacking the
`revenue_growth` key entirely, `_calculate_feasibility` returns `0`: the
mean divides `sum([0]) = 0` by `len([]) = 0` and the division-by-zero error
is caught by the per-topic `except` branch. -/
theorem C9_missing_series_scores_zero
    (query : String → Except String (Option KBRecord)) (trend : String)
    (r : KBRecord)
    (hq : query (historicalKey trend) = Except.ok (some r))
    (hmissing : r.revenue_growth = none) (htruthy : r.truthy = true) :
    calculate_feasibility query trend = 0 := by
  unfold calculate_feasibility
  rw [hq]
  simp [kbTruthy, htruthy, hmissing]

/-- C9 witness: a concrete truthy record without the `revenue_growth` key. -/
theorem C9_missing_series_scores_zero_witness :
    calculate_feasibility qMissingSeries "ai" = 0 :=
  C9_missing_series_scores_zero qMissingSeries "ai"
    { revenue_growth := none, hasOtherFields := true } rfl rfl rfl

/-- C10: when the query succeeds but returns a falsy value (`None` or an
empty dict), `_calculate_feasibility` returns exactly `0.5` and the
computation takes the non-raising `else` branch of the conditional. -/
theorem C10_falsy_record_scores_half
    (query : String → Except String (Option KBRecord)) (trend : String)
    (res : Option KBRecord)
    (hq : query (historicalKey trend) = Except.ok res)
    (hfalsy : kbTruthy res = false) :
    calculate_feasibility query trend = 1/2 := by
  unfold calculate_feasibility
  rw [hq]
  simp [hfalsy]

/-- C10 witness: a knowledge base answering `None` on a concrete topic. -/
theorem C10_falsy_record_scores_half_witness :
    calculate_feasibility qNone "ai" = 1/2 :=
  C10_falsy_record_scores_half qNone "ai" none rfl rfl

/-- Knowledge base raising for the key of topic `"bad"` and otherwise
returning a two-element growth series. -/
def qFailBad : String → Except String (Option KBRecord) :=
  fun k =>
    if k = historicalKey "bad" then Except.error "boom"
    else Except.ok (some { revenue_growth := some [1, 3], hasOtherFields := false })

/-- C2: a knowledge-base failure for one topic gives that topic feasibility
`0`, every other topic in the batch scores as it would under any knowledge
base `query'` that agrees with `query` away from the failing topic, and
`_generate_recommendations` still yields one record per topic (no abort). -/
theorem C2_per_topic_isolation
    (query query' : String → Except String (Option KBRecord))
    (trends : List String) (t : String)
    (herr : ∃ e, query (historicalKey t) = Except.error e)
    (hagree : ∀ u, u ≠ t → query' (historicalKey u) = query (historicalKey u)) :
    (generate_recommendations query trends).length = trends.length ∧
    ∀ r ∈ generate_recommendations query trends,
      (r.trend = t → r.feasibility_score = 0) ∧
      (r.trend ≠ t → r.feasibility_score = calculate_feasibility query' r.trend) := by
  refine ⟨by simp [generate_recommendations], ?_⟩
  intro r hr
  simp only [generate_recommendations, List.mem_map] at hr
  obtain ⟨u, _, rfl⟩ := hr
  refine ⟨fun heq => ?_, fun hne => ?_⟩
  · obtain ⟨e, he⟩ := herr
    simp only at heq
    subst heq
    simp [calculate_feasibility, he]
  · simp only at hne ⊢
    unfold calculate_feasibility
    rw [hagree u hne]

/-- C2 witness: batch `["good", "bad"]` where the knowledge base raises only
for `"bad"`: the batch keeps its length, `"bad"` scores `0` and `"good"`
scores the mean `(1 + 3) / 2 = 2` of its series. -/
theorem C2_per_topic_isolation_witness :
    (∃ e, qFailBad (historicalKey "bad") = Except.error e) ∧
    (generate_recommendations qFailBad ["good", "bad"]).length = 2 ∧
    calculate_feasibility qFailBad "bad" = 0 ∧
    calculate_feasibility qFailBad "good" = 2 := by
  have h := C2_per_topic_isolation qFailBad qFailBad ["good", "bad"] "bad"
    ⟨"boom", by rfl⟩ (fun u _ => rfl)
  have hmem : RecommendationRecord.mk "bad" "entry" (calculate_feasibility qFailBad "bad")
      ∈ generate_recommendations qFailBad ["good", "bad"] := by
    simp [generate_recommendations]
  refine ⟨⟨"boom", by rfl⟩, h.1, (h.2 _ hmem).1 rfl, ?_⟩
  have hne : historicalKey "good" ≠ historicalKey "bad" := by decide
  have hq : qFailBad (historicalKey "good")
      = Except.ok (some { revenue_growth := some [1, 3], hasOtherFields := false }) := by
    unfold qFailBad
    rw [if_neg hne]
  unfold calculate_feasibility
  rw [hq]
  simp [kbTruthy, KBRecord.truthy]
  norm_num

/-- Indexing a zip: element `i` of `l₁.zip l₂` pairs element `i` of `l₁`
with element `i` of `l₂`. -/
theorem getElem?_zip_of_getElem? {γ δ : Type} :
    ∀ (l₁ : List γ) (l₂ : List δ) (i : ℕ) (a : γ) (b : δ),
      l₁[i]? = some a → l₂[i]? = some b → (l₁.zip l₂)[i]? = some (a, b)
  | [], _, _, _, _, h1, _ => by simp at h1
  | _ :: _, [], _, _, _, _, h2 => by simp at h2
  | x :: l₁, y :: l₂, 0, a, b, h1, h2 => by
    simp_all [List.zip_cons_cons]
  | x :: l₁, y :: l₂, i + 1, a, b, h1, h2 => by
    simp only [List.zip_cons_cons, List.getElem?_cons_succ] at h1 h2 ⊢
    exact getElem?_zip_of_getElem? l₁ l₂ i a b h1 h2

/-- C3: when the topic modeler returns `topics` and the sentiment analyzer
returns `sentiments`, `analyze_data` succeeds with exactly
`min topics.length sentiments.length` records, record `i` pairing topic `i`
with sentiment `i` and the bundle's timestamp; positions at or beyond the
minimum yield nothing. -/
theorem C3_zip_truncation {α β : Type}
    (extract_topics : α → Except String (List String))
    (analyze_sentiment : β → Except String (List ℚ))
    (raw : RawDataBundle α β) (topics : List String) (sentiments : List ℚ)
    (h1 : extract_topics raw.news = Except.ok topics)
    (h2 : analyze_sentiment raw.social_media = Except.ok sentiments) :
    ∃ recs : List TrendRecord,
      analyze_data extract_topics analyze_sentiment raw = Except.ok recs ∧
      recs.length = min topics.length sentiments.length ∧
      (∀ (i : ℕ) (t : String) (s : ℚ), topics[i]? = some t → sentiments[i]? = some s →
        recs[i]? = some (TrendRecord.mk t s raw.timestamp)) ∧
      (∀ i : ℕ, min topics.length sentiments.length ≤ i → recs[i]? = none) := by
  refine ⟨(topics.zip sentiments).map fun ts =>
    TrendRecord.mk ts.1 ts.2 raw.timestamp, ?_, ?_, ?_, ?_⟩
  · unfold analyze_data
    rw [h1, h2]
  · simp [List.length_zip]
  · intro i t s ht hs
    have hz := getElem?_zip_of_getElem? topics sentiments i t s ht hs
    simp [List.getElem?_map, hz]
  · intro i hi
    rw [List.getElem?_eq_none]
    simpa [List.length_zip] using hi

/-- Concrete topic modeler for the C3 witness: two topics. -/
def etConc : Unit → Except String (List String) :=
  fun _ => Except.ok ["ai", "crypto"]

/-- Concrete sentiment analyzer for the C3 witness: one sentiment. -/
def saConc : Unit → Except String (List ℚ) :=
  fun _ => Except.ok [4/5]

/-- Concrete bundle for the C3 witness. -/
def bundleConc : RawDataBundle Unit Unit :=
  { news := (), social_media := (), timestamp := "t0" }

/-- C3 witness: two topics, one sentiment: exactly one record survives,
pairing `"ai"` with `0.8`; `"crypto"` is discarded. -/
theorem C3_zip_truncation_witness :
    analyze_data etConc saConc bundleConc
      = Except.ok [{ topic := "ai", sentiment_score := 4/5, timestamp := "t0" }] := by
  obtain ⟨recs, hok, hlen, hpair, -⟩ :=
    C3_zip_truncation etConc saConc bundleConc ["ai", "crypto"] [4/5] rfl rfl
  have h1 : recs.length = 1 := by simpa using hlen
  obtain ⟨a, rfl⟩ := List.length_eq_one.mp h1
  have h0 := hpair 0 "ai" (4/5) rfl rfl
  simp only [List.getElem?_cons_zero, Option.some_inj] at h0
  rw [hok, h0]
  rfl

/-- C4: the `emerging_trends` of `generate_insights` are exactly the topics
of the records whose `market_relevance_score` is at least `0.7` (boundary
included), in input order, duplicates retained: the list equals the topic
projection of the stable filter by the inclusive threshold. -/
theorem C4_emergence_filter
    (query : String → Except String (Option KBRecord)) (now : String)
    (validated_data : List ValidatedRecord) :
    (generate_insights query now validated_data).emerging_trends
      = (validated_data.filter fun item =>
          7/10 ≤ item.market_relevance_score).map ValidatedRecord.topic := by
  simp only [generate_insights]
  induction validated_data with
  | nil => rfl
  | cons item rest ih =>
    by_cases h : (7:ℚ)/10 ≤ item.market_relevance_score
    · simp [List.filterMap_cons, List.filter_cons, h, ge_iff_le, ih]
    · simp [List.filterMap_cons, List.filter_cons, h, ge_iff_le, ih]

/-- C7: `generate_insights` emits one recommendation per emerging topic, in
the order of `emerging_trends`, each with `recommendation_type = "entry"`
and the feasibility score `_calculate_feasibility` computes for that topic;
and whenever the knowledge base resolves a topic to a record with a
non-empty `revenue_growth` series, that feasibility score is the arithmetic
mean of the series. -/
theorem C7_recommendations_structure
    (query : String → Except String (Option KBRecord)) (now : String)
    (validated_data : List ValidatedRecord) :
    ((generate_insights query now validated_data).recommendations.length
        = (generate_insights query now validated_data).emerging_trends.length) ∧
    (∀ (i : ℕ) (t : String),
      (generate_insights query now validated_data).emerging_trends[i]? = some t →
      (generate_insights query now validated_data).recommendations[i]?
        = some (RecommendationRecord.mk t "entry" (calculate_feasibility query t))) ∧
    (∀ (t : String) (r : KBRecord) (growth : List ℚ),
      query (historicalKey t) = Except.ok (some r) →
      r.revenue_growth = some growth → growth ≠ [] →
      calculate_feasibility query t = growth.sum / (growth.length : ℚ)) := by
  refine ⟨by simp [generate_insights, generate_recommendations], ?_, ?_⟩
  · intro i t ht
    simp only [generate_insights, generate_recommendations] at ht ⊢
    simp [List.getElem?_map, ht]
  · intro t r growth hq hg hne
    unfold calculate_feasibility
    rw [hq]
    have hlen : growth.length ≠ 0 := fun h => hne (List.eq_nil_of_length_eq_zero h)
    simp [kbTruthy, KBRecord.truthy, hg, hlen]

/-- Knowledge base for the C7 witness: every key resolves to the series
`[1, 2, 3]`. -/
def qSeries123 : String → Except String (Option KBRecord) :=
  fun _ => Except.ok (some { revenue_growth := some [1, 2, 3], hasOtherFields := false })

/-- One validated record used by the C7 witness, relevance `0.9`. -/
def vrAi : ValidatedRecord :=
  { topic := "ai", sentiment_score := 4/5, timestamp := "t0"
    validation_status := "valid", market_relevance_score := 9/10 }

/-- C7 witness: a single emerging topic `"ai"` with series `[1, 2, 3]`
yields one `"entry"` recommendation whose feasibility is the mean `2`. -/
theorem C7_recommendations_structure_witness :
    (generate_insights qSeries123 "t1" [vrAi]).recommendations.length
        = (generate_insights qSeries123 "t1" [vrAi]).emerging_trends.length ∧
    (generate_insights qSeries123 "t1" [vrAi]).recommendations[0]?
        = some (RecommendationRecord.mk "ai" "entry" (calculate_feasibility qSeries123 "ai")) ∧
    calculate_feasibility qSeries123 "ai" = 2 := by
  have h := C7_recommendations_structure qSeries123 "t1" [vrAi]
  refine ⟨h.1, h.2.1 0 "ai" ?_, ?_⟩
  · show (generate_insights qSeries123 "t1" [vrAi]).emerging_trends[0]? = some "ai"
    have hrel : (7:ℚ)/10 ≤ 9/10 := by norm_num
    simp [generate_insights, List.filterMap_cons, ge_iff_le, vrAi, hrel]
  · have hm := h.2.2 "ai"
      { revenue_growth := some [1, 2, 3], hasOtherFields := false } [1, 2, 3]
      rfl rfl (by simp)
    rw [hm]
    norm_num

/-- What `validate_trends` does with one trend whose validator call
succeeded: emit the annotated record on a truthy `is_valid`, drop it
otherwise. -/
def validationOutcome (validate : String → Except String ValidationResult)
    (trend : TrendRecord) : Option ValidatedRecord :=
  match validate trend.topic with
  | Except.error _ => none
  | Except.ok vr =>
    if vr.is_valid.getD false then some (mkValidated trend vr) else none

/-- When no validator call raises, `validate_trends` is the stable filter
`filterMap (validationOutcome validate)` of its input. -/
theorem validate_trends_eq_filterMap
    (validate : String → Except String ValidationResult)
    (trends : List TrendRecord)
    (hok : ∀ t ∈ trends, ∃ vr, validate t.topic = Except.ok vr) :
    validate_trends validate trends
      = Except.ok (trends.filterMap (validationOutcome validate)) := by
  induction trends with
  | nil => rfl
  | cons t rest ih =>
    obtain ⟨vr, hvr⟩ := hok t (by simp)
    have ih' := ih fun u hu => hok u (by simp [hu])
    rw [validate_trends, hvr, ih', List.filterMap_cons]
    unfold validationOutcome
    rw [hvr]
    by_cases h : vr.is_valid.getD false <;> simp [h]

/-- C5: when no validator call raises, `validate_trends` succeeds and its
output is the stable filter of the inputs: one `ValidatedRecord` (carrying
the collaborator's relevance score, `0.5` when omitted) per input whose
check is true, in input order; false or missing verdicts are dropped, so an
all-false batch yields `[]`. -/
theorem C5_validator_filter
    (validate : String → Except String ValidationResult)
    (trends : List TrendRecord)
    (hok : ∀ t ∈ trends, ∃ vr, validate t.topic = Except.ok vr) :
    validate_trends validate trends
      = Except.ok (trends.filterMap (validationOutcome validate)) :=
  validate_trends_eq_filterMap validate trends hok

/-- Validator for the C5 witness: `"ai"` is valid with relevance `0.9`,
`"crypto"` is valid with the score omitted, anything else gets a false
verdict. -/
def vConc : String → Except String ValidationResult :=
  fun topic =>
    if topic = "ai" then Except.ok { is_valid := some true, relevance_score := some (9/10) }
    else if topic = "crypto" then Except.ok { is_valid := some true, relevance_score := none }
    else Except.ok { is_valid := some false, relevance_score := some (1/10) }

/-- Trend records used by the validator witnesses. -/
def trAi : TrendRecord := { topic := "ai", sentiment_score := 4/5, timestamp := "t0" }

/-- A second trend record used by the validator witnesses. -/
def trCrypto : TrendRecord := { topic := "crypto", sentiment_score := 1/5, timestamp := "t0" }

/-- A trend record the witness validator rejects. -/
def trJunk : TrendRecord := { topic := "junk", sentiment_score := 0, timestamp := "t0" }

/-- The output the witness validator batch is expected to produce. -/
def validatedConc : List ValidatedRecord :=
  [{ topic := "ai", sentiment_score := 4/5, timestamp := "t0",
     validation_status := "valid", market_relevance_score := 9/10 },
   { topic := "crypto", sentiment_score := 1/5, timestamp := "t0",
     validation_status := "valid", market_relevance_score := 1/2 }]

/-- C5 witness: `"ai"` keeps its reported score, `"crypto"` gets the default
`0.5`, the rejected `"junk"` is dropped, and order is preserved. -/
theorem C5_validator_filter_witness :
    validate_trends vConc [trAi, trJunk, trCrypto] = Except.ok validatedConc := by
  have h := C5_validator_filter vConc [trAi, trJunk, trCrypto]
    (by intro t ht; fin_cases ht <;> exact ⟨_, rfl⟩)
  rw [h]
  simp [validationOutcome, vConc, trAi, trJunk, trCrypto, mkValidated, validatedConc]

/-- C6: `validate_trends` fails exactly when some validator call itself
raises: it succeeds if and only if the validator answers every topic in the
batch; a false verdict is a filtering decision, never a failure. -/
theorem C6_fails_iff_collaborator_raises
    (validate : String → Except String ValidationResult)
    (trends : List TrendRecord) :
    (∃ out, validate_trends validate trends = Except.ok out)
      ↔ ∀ t ∈ trends, ∃ vr, validate t.topic = Except.ok vr := by
  induction trends with
  | nil => simp [validate_trends]
  | cons t rest ih =>
    constructor
    · rintro ⟨out, hout⟩ u hu
      rw [validate_trends] at hout
      cases hv : validate t.topic with
      | error e => rw [hv] at hout; exact absurd hout (by simp)
      | ok vr =>
        rw [hv] at hout
        cases hrest : validate_trends validate rest with
        | error e => rw [hrest] at hout; exact absurd hout (by simp)
        | ok tail =>
          rcases List.mem_cons.mp hu with rfl | hu'
          · exact ⟨vr, hv⟩
          · exact (ih.mp ⟨tail, hrest⟩) u hu'
    · intro hok
      exact ⟨_, validate_trends_eq_filterMap validate (t :: rest) hok⟩

/-- C8: every record `validate_trends` emits keeps its source trend's
`topic`, `sentiment_score` and `timestamp` unchanged, gains
`validation_status = "valid"`, and the emitted records, projected back to
trend records, form a sublist of the input (each output corresponds to one
input, in order). -/
theorem C8_frame_fields_preserved
    (validate : String → Except String ValidationResult)
    (trends : List TrendRecord) (out : List ValidatedRecord)
    (hout : validate_trends validate trends = Except.ok out) :
    (∀ o ∈ out, o.validation_status = "valid" ∧
      ∃ t ∈ trends, o.topic = t.topic ∧ o.sentiment_score = t.sentiment_score ∧
        o.timestamp = t.timestamp) ∧
    (out.map fun o => TrendRecord.mk o.topic o.sentiment_score o.timestamp).Sublist
      trends := by
  induction trends generalizing out with
  | nil =>
    rw [validate_trends] at hout
    cases hout
    exact ⟨by simp, by simp⟩
  | cons t rest ih =>
    rw [validate_trends] at hout
    cases hv : validate t.topic with
    | error e => rw [hv] at hout; exact absurd hout (by simp)
    | ok vr =>
      cases hrest : validate_trends validate rest with
      | error e => rw [hv, hrest] at hout; exact absurd hout (by simp)
      | ok tail =>
        simp only [hv, hrest] at hout
        obtain ⟨htail, hsub⟩ := ih tail hrest
        by_cases h : vr.is_valid.getD false
        · rw [if_pos h] at hout
          cases hout
          constructor
          · intro o ho
            rcases List.mem_cons.mp ho with rfl | ho'
            · exact ⟨rfl, t, by simp [mkValidated]⟩
            · obtain ⟨hs, u, hu, hf⟩ := htail o ho'
              exact ⟨hs, u, by simp [hu], hf⟩
          · simpa [mkValidated] using hsub.cons₂ t
        · rw [if_neg h] at hout
          cases hout
          constructor
          · intro o ho
            obtain ⟨hs, u, hu, hf⟩ := htail o ho
            exact ⟨hs, u, by simp [hu], hf⟩
          · exact hsub.cons t

/-- C8 witness: the concrete validator batch: the two emitted records keep
their inputs' fields, carry `validation_status = "valid"`, and project to a
sublist of the input `[trAi, trJunk, trCrypto]`. -/
theorem C8_frame_fields_preserved_witness :
    (∀ o ∈ validatedConc,
      o.validation_status = "valid" ∧
      ∃ t ∈ [trAi, trJunk, trCrypto], o.topic = t.topic ∧
        o.sentiment_score = t.sentiment_score ∧ o.timestamp = t.timestamp) ∧
    (validatedConc.map
      fun o => TrendRecord.mk o.topic o.sentiment_score o.timestamp).Sublist
      [trAi, trJunk, trCrypto] :=
  C8_frame_fields_preserved vConc [trAi, trJunk, trCrypto] validatedConc
    (by
      rw [validate_trends_eq_filterMap vConc [trAi, trJunk, trCrypto]
        (by intro t ht; fin_cases ht <;> exact ⟨_, rfl⟩)]
      simp [validationOutcome, vConc, trAi, trJunk, trCrypto, mkValidated, validatedConc])

end MarketResearch
